import Mathlib

/-!
Verification of the MarzbanCentralManager control plane against its
natural-language specification.  Each Python function relevant to a claim is
shallowly embedded as an executable Lean definition; machine floats are
modelled as rationals, strings as `String` or `List Char`, and fallible code
as `Except`/`Option`.
-/

/-! ## Node and health status enums (src/models/node.py, monitoring_service.py) -/

/-- `NodeStatus` from src/src/models/node.py. -/
inductive MNodeStatus where
  | connected
  | connecting
  | disconnected
  | disabled
  | error
  deriving DecidableEq, Repr

/-- `HealthStatus` from src/src/services/monitoring_service.py. -/
inductive MHealthStatus where
  | healthy
  | warning
  | critical
  | unknown
  deriving DecidableEq, Repr

/-- `MonitoringService._calculate_health_status`
(src/src/services/monitoring_service.py lines 251-267).  `rt` is the optional
`metrics.response_time` in milliseconds; the Python guards
`if metrics.response_time and ...` are truthiness tests, false for both `None`
and `0.0`, which the `r ≠ 0` conjuncts reproduce. -/
def calculate_health_status (status : MNodeStatus) (rt : Option ℚ) : MHealthStatus :=
  match status with
  | .connected =>
    match rt with
    | some r =>
      if r ≠ 0 ∧ r < 100 then .healthy
      else if r ≠ 0 ∧ r < 500 then .warning
      else .critical
    | none => .critical
  | .connecting => .warning
  | .disconnected => .critical
  | .error => .critical
  | .disabled => .unknown

/-! ## System metrics recomputation (monitoring_service.py lines 269-285) -/

/-- The bucket counters of `SystemMetrics` recomputed by
`MonitoringService._update_system_metrics`; the CPU/memory/network fields do
not participate in the counting claim and are omitted. -/
structure MSystemMetrics where
  total_nodes : Nat
  healthy_nodes : Nat
  warning_nodes : Nat
  critical_nodes : Nat
  offline_nodes : Nat
  deriving DecidableEq, Repr

/-- `MonitoringService._update_system_metrics` (lines 269-276): the node-metrics
map is abstracted to its list of (node status, health status) pairs, which is
all those five counters read. -/
def update_system_metrics (metrics : List (MNodeStatus × MHealthStatus)) : MSystemMetrics :=
  { total_nodes := metrics.length
    healthy_nodes := metrics.countP (fun m => m.2 = MHealthStatus.healthy)
    warning_nodes := metrics.countP (fun m => m.2 = MHealthStatus.warning)
    critical_nodes := metrics.countP (fun m => m.2 = MHealthStatus.critical)
    offline_nodes := metrics.countP
      (fun m => m.1 = MNodeStatus.disconnected ∨ m.1 = MNodeStatus.error) }

/-- Count of nodes whose health status is `unknown` (the disabled bucket); not a
stored field of `SystemMetrics`, derived here for the bucket-sum claim. -/
def unknown_count (metrics : List (MNodeStatus × MHealthStatus)) : Nat :=
  metrics.countP (fun m => m.2 = MHealthStatus.unknown)

/-! ## Secret masking (src/src/core/security.py 137-146, src/src/core/utils.py 140-149) -/

/-- Python's negative-index suffix slice `data[-v:]`: since `-0 == 0`, at
`v = 0` the slice is `data[0:]` — the whole string, not the empty suffix; for
`v ≥ 1` it is the last `min v len` characters. -/
def py_suffix_slice (data : List Char) (v : Nat) : List Char :=
  if v = 0 then data else data.drop (data.length - v)

/-- `mask_sensitive_data` from src/src/core/utils.py lines 140-149, on the
character list of the input string.  `if not data or len(data) <= visible_chars * 2`
collapses to the single replicate branch because `"*" * 0 = ""`; the
`data[-visible_chars:]` suffix is `py_suffix_slice`. -/
def mask_sensitive_data (data : List Char) (mask_char : Char := '*')
    (visible_chars : Nat := 4) : List Char :=
  if data.length ≤ visible_chars * 2 then
    List.replicate data.length mask_char
  else
    data.take visible_chars
      ++ List.replicate (data.length - visible_chars * 2) mask_char
      ++ py_suffix_slice data visible_chars

/-- `SecurityManager.mask_sensitive_data` from src/src/core/security.py lines
137-146; identical to the utils helper with the mask character fixed to `*`. -/
def security_mask_sensitive_data (data : List Char) (visible_chars : Nat := 4) : List Char :=
  if data.length ≤ visible_chars * 2 then
    List.replicate data.length '*'
  else
    data.take visible_chars
      ++ List.replicate (data.length - visible_chars * 2) '*'
      ++ py_suffix_slice data visible_chars

/-! ## Theorems for claims C6, C7, C10 -/

/-- C6 counterexample: a connected node whose probe returned exactly 0 ms is
classified `critical`, not `healthy`, because `if metrics.response_time and …`
treats `0.0` as falsy; the claim required `healthy` for `0 ≤ rt < 100`. -/
theorem connected_zero_rt_is_critical :
    calculate_health_status MNodeStatus.connected (some 0) = MHealthStatus.critical ∧
    MHealthStatus.critical ≠ MHealthStatus.healthy := by
  constructor
  · show calculate_health_status MNodeStatus.connected (some 0) = MHealthStatus.critical
    simp [calculate_health_status]
  · decide

/-- C6 (amended): the health table holds with the `connected` row restricted to
strictly positive response times, a present response time of exactly 0 being
treated like an absent one (`critical`). -/
theorem health_status_table (rt : ℚ) :
    (0 < rt → rt < 100 →
      calculate_health_status MNodeStatus.connected (some rt) = MHealthStatus.healthy) ∧
    ((100 : ℚ) ≤ rt → rt < 500 →
      calculate_health_status MNodeStatus.connected (some rt) = MHealthStatus.warning) ∧
    ((500 : ℚ) ≤ rt →
      calculate_health_status MNodeStatus.connected (some rt) = MHealthStatus.critical) ∧
    calculate_health_status MNodeStatus.connected none = MHealthStatus.critical ∧
    calculate_health_status MNodeStatus.connected (some 0) = MHealthStatus.critical ∧
    (∀ ort, calculate_health_status MNodeStatus.connecting ort = MHealthStatus.warning) ∧
    (∀ ort, calculate_health_status MNodeStatus.disconnected ort = MHealthStatus.critical) ∧
    (∀ ort, calculate_health_status MNodeStatus.error ort = MHealthStatus.critical) ∧
    (∀ ort, calculate_health_status MNodeStatus.disabled ort = MHealthStatus.unknown) := by
  refine ⟨?_, ?_, ?_, ?_, ?_, ?_, ?_, ?_, ?_⟩
  · intro h0 h100
    simp [calculate_health_status, ne_of_gt h0, h100]
  · intro h100 h500
    have hne : rt ≠ 0 := by positivity
    have : ¬ rt < 100 := not_lt.mpr (by linarith)
    simp [calculate_health_status, hne, this, h500]
  · intro h500
    have : ¬ rt < 100 := not_lt.mpr (by linarith)
    have h2 : ¬ rt < 500 := not_lt.mpr (by linarith)
    simp [calculate_health_status, this, h2]
  · simp [calculate_health_status]
  · simp [calculate_health_status]
  · intro ort; simp [calculate_health_status]
  · intro ort; simp [calculate_health_status]
  · intro ort; simp [calculate_health_status]
  · intro ort; simp [calculate_health_status]

/-- Witness for `health_status_table` at concrete response times. -/
theorem health_status_table_witness :
    calculate_health_status MNodeStatus.connected (some 50) = MHealthStatus.healthy ∧
    calculate_health_status MNodeStatus.connected (some 250) = MHealthStatus.warning ∧
    calculate_health_status MNodeStatus.connected (some 700) = MHealthStatus.critical := by
  refine ⟨?_, ?_, ?_⟩
  · exact (health_status_table 50).1 (by norm_num) (by norm_num)
  · exact (health_status_table 250).2.1 (by norm_num) (by norm_num)
  · exact (health_status_table 700).2.2.1 (by norm_num)

/-- C7 counterexample: with a single disconnected node (whose derived health is
critical), the five buckets {healthy, warning, critical, offline, unknown} sum
to 2 while `totalNodes` is 1 — `offline_nodes` is counted by node status and
overlaps the `critical` health bucket. -/
theorem system_metrics_bucket_sum_counterexample :
    let m := [(MNodeStatus.disconnected, MHealthStatus.critical)]
    (update_system_metrics m).healthy_nodes + (update_system_metrics m).warning_nodes +
      (update_system_metrics m).critical_nodes + (update_system_metrics m).offline_nodes +
      unknown_count m = 2 ∧
    (update_system_metrics m).total_nodes = 1 ∧ (2 : Nat) ≠ 1 := by
  refine ⟨?_, ?_, by decide⟩ <;> rfl

/-- The four health buckets partition the node-metrics map. -/
lemma health_buckets_partition (metrics : List (MNodeStatus × MHealthStatus)) :
    metrics.countP (fun m => m.2 = MHealthStatus.healthy) +
      metrics.countP (fun m => m.2 = MHealthStatus.warning) +
      metrics.countP (fun m => m.2 = MHealthStatus.critical) +
      metrics.countP (fun m => m.2 = MHealthStatus.unknown) = metrics.length := by
  induction metrics with
  | nil => rfl
  | cons h t ih =>
    simp only [List.countP_cons, List.length_cons]
    rcases h with ⟨hs, hh⟩
    cases hh <;> simp_all <;> omega

/-- C7 (amended): for every assignment of node statuses and health statuses,
the four health buckets {healthy, warning, critical, unknown} partition the
nodes, so they sum to `totalNodes`; adding `offline_nodes` (counted by node
status disconnected/error, overlapping critical) gives `totalNodes + offline_nodes`. -/
theorem system_metrics_bucket_sum (metrics : List (MNodeStatus × MHealthStatus)) :
    (update_system_metrics metrics).healthy_nodes +
      (update_system_metrics metrics).warning_nodes +
      (update_system_metrics metrics).critical_nodes +
      unknown_count metrics = (update_system_metrics metrics).total_nodes ∧
    (update_system_metrics metrics).healthy_nodes +
      (update_system_metrics metrics).warning_nodes +
      (update_system_metrics metrics).critical_nodes +
      (update_system_metrics metrics).offline_nodes +
      unknown_count metrics =
      (update_system_metrics metrics).total_nodes +
        (update_system_metrics metrics).offline_nodes := by
  have h := health_buckets_partition metrics
  simp only [update_system_metrics, unknown_count]
  omega

/-- C10 counterexample: with `visible_chars = 0` the Python slice `data[-0:]`
is the whole string, so masking the 6-character secret "secret" returns
"******secret" — length 12, not 6, with the secret fully revealed; the claim
required the result to have exactly the input's length for every
`visibleChars`. -/
theorem mask_zero_visible_counterexample :
    mask_sensitive_data ['s','e','c','r','e','t'] '*' 0 =
      ['*','*','*','*','*','*','s','e','c','r','e','t'] ∧
    (mask_sensitive_data ['s','e','c','r','e','t'] '*' 0).length = 12 ∧
    security_mask_sensitive_data ['s','e','c','r','e','t'] 0 =
      ['*','*','*','*','*','*','s','e','c','r','e','t'] ∧
    (12 : Nat) ≠ 6 := by
  refine ⟨?_, ?_, ?_, by decide⟩ <;> rfl

/-- C10 (amended): for every `visibleChars ≥ 1` both secret-masking helpers
preserve the length of the input exactly; whenever the length is at most
`2 * visible_chars` the result is entirely the mask character (this holds for
every `visibleChars`, 0 included); the empty string maps to the empty string.
At `visibleChars = 0` a non-empty input instead yields the full mask run
followed by the whole input — twice the length, secret revealed. -/
theorem mask_length_and_full_mask (data : List Char) (v : Nat) (c : Char) :
    (0 < v →
      (mask_sensitive_data data c v).length = data.length ∧
      (security_mask_sensitive_data data v).length = data.length) ∧
    (data.length ≤ 2 * v →
      mask_sensitive_data data c v = List.replicate data.length c ∧
      security_mask_sensitive_data data v = List.replicate data.length '*') ∧
    mask_sensitive_data [] c v = [] ∧
    security_mask_sensitive_data [] v = [] ∧
    (v = 0 → data ≠ [] →
      mask_sensitive_data data c 0 = List.replicate data.length c ++ data ∧
      (mask_sensitive_data data c 0).length = 2 * data.length) := by
  refine ⟨?_, ?_, ?_, ?_, ?_⟩
  · intro hv
    have hv0 : v ≠ 0 := Nat.pos_iff_ne_zero.mp hv
    constructor
    · unfold mask_sensitive_data py_suffix_slice
      split
      · simp
      · rename_i hgt
        push_neg at hgt
        simp only [List.length_append, List.length_take, List.length_replicate,
          List.length_drop]
        omega
    · unfold security_mask_sensitive_data py_suffix_slice
      split
      · simp
      · rename_i hgt
        push_neg at hgt
        simp only [List.length_append, List.length_take, List.length_replicate,
          List.length_drop]
        omega
  · intro hle
    have hle2 : data.length ≤ v * 2 := by omega
    constructor
    · unfold mask_sensitive_data
      simp [hle2]
    · unfold security_mask_sensitive_data
      simp [hle2]
  · unfold mask_sensitive_data; simp
  · unfold security_mask_sensitive_data; simp
  · intro hv hne
    have hlen : data.length ≠ 0 := by simpa using hne
    have hgt : ¬ data.length ≤ 0 * 2 := by omega
    constructor
    · unfold mask_sensitive_data py_suffix_slice
      rw [if_neg hgt, if_pos rfl]
      simp
    · unfold mask_sensitive_data py_suffix_slice
      rw [if_neg hgt, if_pos rfl]
      simp only [List.length_append, List.length_take, List.length_replicate]
      omega

/-- Witness for `mask_length_and_full_mask`: the 6-character secret "secret"
with the default `visible_chars = 4` is fully masked and keeps its length. -/
theorem mask_length_and_full_mask_witness :
    (mask_sensitive_data ['s','e','c','r','e','t'] '*' 4).length = 6 ∧
    mask_sensitive_data ['s','e','c','r','e','t'] '*' 4 = List.replicate 6 '*' := by
  have h := mask_length_and_full_mask ['s','e','c','r','e','t'] 4 '*'
  exact ⟨(h.1 (by decide)).1, (h.2.1 (by decide)).1⟩

/-! ## Retry delay (src/src/core/connection_manager.py) -/

/-- `RetryConfig` from src/src/core/connection_manager.py lines 22-29; the
float fields are modelled as rationals. -/
structure RetryConfig where
  max_attempts : Nat := 3
  base_delay : ℚ := 1
  max_delay : ℚ := 60
  exponential_base : ℚ := 2
  jitter : Bool := true
  deriving DecidableEq, Repr

/-- `RetryManager._calculate_delay` (lines 250-260).  `u` is the value drawn by
`random.random()` (uniform on `[0,1)`); the jitter term is
`delay * 0.25 * (2 * u - 1)`, and the result is clamped below by `0`. -/
def calculate_delay (cfg : RetryConfig) (attempt : Nat) (u : ℚ) : ℚ :=
  let delay := cfg.base_delay * cfg.exponential_base ^ attempt
  let delay := min delay cfg.max_delay
  let delay := if cfg.jitter then delay + delay * (1/4) * (2 * u - 1) else delay
  max 0 delay

/-- C3 counterexample: with `maxAttempts = 10` and the remaining parameters at
their shipped defaults (baseDelay 1, maxDelay 60, exponentialBase 2, jitter
on) and jitter draw `u = 9/10`, the delay slept after the 7th failing attempt
(attempt index 6) is `72 > 60 = maxDelay` — jitter is applied after the cap,
so the claimed bound `dᵢ ≤ maxDelay` fails. -/
theorem retry_delay_exceeds_max_counterexample :
    calculate_delay { max_attempts := 10 } 6 (9/10) = 72 ∧ ¬ ((72 : ℚ) ≤ 60) := by
  constructor
  · norm_num [calculate_delay]
  · norm_num

/-- C3 (amended): with jitter disabled the delay never exceeds `maxDelay`
(for a non-negative `maxDelay`); with jitter enabled it can overshoot by the
±25 % jitter, but stays within `1.25 × maxDelay` for any draw `u ∈ [0,1]`;
and with jitter disabled the delays are non-decreasing provided
`baseDelay ≥ 0` and `exponentialBase ≥ 1` (true of the shipped defaults). -/
theorem retry_delay_bounds (cfg : RetryConfig) (i : Nat) (u : ℚ) :
    (cfg.jitter = false → 0 ≤ cfg.max_delay →
      calculate_delay cfg i u ≤ cfg.max_delay) ∧
    (cfg.jitter = true → 0 ≤ cfg.max_delay → 0 ≤ u → u ≤ 1 →
      calculate_delay cfg i u ≤ 5/4 * cfg.max_delay) ∧
    (cfg.jitter = false → 0 ≤ cfg.base_delay → 1 ≤ cfg.exponential_base →
      calculate_delay cfg i u ≤ calculate_delay cfg (i + 1) u) := by
  refine ⟨?_, ?_, ?_⟩
  · intro hj hmax
    simp only [calculate_delay, hj, if_false, Bool.false_eq_true]
    have : min (cfg.base_delay * cfg.exponential_base ^ i) cfg.max_delay ≤ cfg.max_delay :=
      min_le_right _ _
    exact max_le hmax this
  · intro hj hmax hu0 hu1
    simp only [calculate_delay, hj, if_true]
    set d := min (cfg.base_delay * cfg.exponential_base ^ i) cfg.max_delay with hd
    have hdmax : d ≤ cfg.max_delay := min_le_right _ _
    have hfac0 : (0 : ℚ) ≤ 1 + (1/4) * (2 * u - 1) := by linarith
    have hfac1 : 1 + (1/4) * (2 * u - 1) ≤ 5/4 := by linarith
    have hrw : d + d * (1/4) * (2 * u - 1) = d * (1 + (1/4) * (2 * u - 1)) := by ring
    rw [hrw]
    rcases le_or_lt d 0 with hdle | hdpos
    · have h1 : d * (1 + (1/4) * (2 * u - 1)) ≤ 0 :=
        mul_nonpos_of_nonpos_of_nonneg hdle hfac0
      have : max 0 (d * (1 + (1/4) * (2 * u - 1))) = 0 := max_eq_left h1
      rw [this]; positivity
    · have h1 : d * (1 + (1/4) * (2 * u - 1)) ≤ d * (5/4) :=
        mul_le_mul_of_nonneg_left hfac1 (le_of_lt hdpos)
      have h2 : d * (5/4) ≤ 5/4 * cfg.max_delay := by
        rw [mul_comm]
        exact mul_le_mul_of_nonneg_left hdmax (by norm_num)
      have h3 : d * (1 + (1/4) * (2 * u - 1)) ≤ 5/4 * cfg.max_delay := le_trans h1 h2
      have h5 : (0:ℚ) ≤ 5/4 * cfg.max_delay := by positivity
      exact max_le h5 h3
  · intro hj hb he
    simp only [calculate_delay, hj, if_false, Bool.false_eq_true]
    have hpow : cfg.base_delay * cfg.exponential_base ^ i ≤
        cfg.base_delay * cfg.exponential_base ^ (i + 1) := by
      apply mul_le_mul_of_nonneg_left _ hb
      exact pow_le_pow_right₀ he (Nat.le_succ i)
    exact max_le_max (le_refl 0) (min_le_min hpow (le_refl _))

/-- Witness for `retry_delay_bounds` at the no-jitter default configuration. -/
theorem retry_delay_bounds_witness :
    calculate_delay { jitter := false } 0 0 ≤ 60 ∧
    calculate_delay { jitter := true } 0 (1/2) ≤ 5/4 * 60 ∧
    calculate_delay { jitter := false } 0 0 ≤ calculate_delay { jitter := false } 1 0 := by
  refine ⟨?_, ?_, ?_⟩
  · exact (retry_delay_bounds { jitter := false } 0 0).1 rfl (by norm_num)
  · exact (retry_delay_bounds { jitter := true } 0 (1/2)).2.1 rfl (by norm_num)
      (by norm_num) (by norm_num)
  · exact (retry_delay_bounds { jitter := false } 0 0).2.2 rfl (by norm_num) (by norm_num)

/-! ## Bulk create (src/src/services/bulk_operations_service.py) -/

/-- `BulkOperationStatus` from src/src/services/bulk_operations_service.py. -/
inductive MBulkStatus where
  | pending
  | running
  | completed
  | failed
  | partial_success
  deriving DecidableEq, Repr

/-- The fields of `BulkOperationResult` the status claim reads. -/
structure MBulkResult where
  total_items : Nat
  successful_items : Nat
  failed_items : Nat
  status : MBulkStatus
  errors : List String
  deriving DecidableEq, Repr

/-- The per-item loop of `BulkOperationsService.bulk_create_nodes` (lines
176-216): each item either succeeds (`none`) or fails with an error message
(`some e`, the stringified exception).  Returns
(successful_items, failed_items, errors) accumulated in item order. -/
def bulk_process_items : List (Option String) → Nat × Nat × List String
  | [] => (0, 0, [])
  | none :: rest =>
    let r := bulk_process_items rest
    (r.1 + 1, r.2.1, r.2.2)
  | some e :: rest =>
    let r := bulk_process_items rest
    (r.1, r.2.1 + 1, e :: r.2.2)

/-- The final-status decision of `bulk_create_nodes` (lines 218-224): zero
failures wins first, then zero successes, else partial. -/
def bulk_final_status (successful_items failed_items : Nat) : MBulkStatus :=
  if failed_items = 0 then .completed
  else if successful_items = 0 then .failed
  else .partial_success

/-- `BulkOperationsService.bulk_create_nodes` (lines 140-241) with the panel
interaction abstracted to the per-item outcome list.  `exn = some (k, m)`
models a full-run exception raised with message `m` after the first `k` items
were processed (the `except` branch, lines 235-241, which appends the message
to `errors` and forces status `failed`); `exn = none` is the normal path. -/
def bulk_create_nodes (outcomes : List (Option String))
    (exn : Option (Nat × String)) : MBulkResult :=
  match exn with
  | none =>
    let r := bulk_process_items outcomes
    { total_items := outcomes.length, successful_items := r.1, failed_items := r.2.1,
      status := bulk_final_status r.1 r.2.1, errors := r.2.2 }
  | some (k, m) =>
    let r := bulk_process_items (outcomes.take k)
    { total_items := outcomes.length, successful_items := r.1, failed_items := r.2.1,
      status := .failed, errors := r.2.2 ++ [m] }

/-- C9 counterexample: a bulk run over the empty item list has zero successful
items, yet its status is `completed`, not `failed` — the `failed_items == 0`
test precedes the `successful_items == 0` test, so the claim's "none succeed →
failed" clause (which vacuously covers the empty list) fails there. -/
theorem bulk_empty_list_counterexample :
    (bulk_create_nodes [] none).successful_items = 0 ∧
    (bulk_create_nodes [] none).status = MBulkStatus.completed ∧
    MBulkStatus.completed ≠ MBulkStatus.failed := by
  refine ⟨rfl, rfl, by decide⟩

/-- Success/failure counters of the bulk loop count the outcome list. -/
lemma bulk_process_items_counts (outcomes : List (Option String)) :
    (bulk_process_items outcomes).1 = outcomes.countP (fun o => o.isNone) ∧
    (bulk_process_items outcomes).2.1 = outcomes.countP (fun o => o.isSome) := by
  induction outcomes with
  | nil => exact ⟨rfl, rfl⟩
  | cons h t ih =>
    cases h <;> simp [bulk_process_items, List.countP_cons, ih.1, ih.2]

/-- C9 (amended): all items succeeding yields `completed` (this includes the
empty list, whose status is `completed`, not `failed`); on a non-empty list
where no item succeeds the status is `failed`; a mix of successes and failures
yields `partial`; and a full-run exception yields `failed` with the exception
message appended to `errors`. -/
theorem bulk_status_classification (outcomes : List (Option String)) :
    ((∀ o ∈ outcomes, o = none) →
      (bulk_create_nodes outcomes none).status = MBulkStatus.completed) ∧
    (outcomes ≠ [] → (∀ o ∈ outcomes, o ≠ none) →
      (bulk_create_nodes outcomes none).status = MBulkStatus.failed) ∧
    ((∃ o ∈ outcomes, o = none) → (∃ o ∈ outcomes, o ≠ none) →
      (bulk_create_nodes outcomes none).status = MBulkStatus.partial_success) ∧
    (∀ k m, (bulk_create_nodes outcomes (some (k, m))).status = MBulkStatus.failed ∧
      m ∈ (bulk_create_nodes outcomes (some (k, m))).errors) := by
  have hc := bulk_process_items_counts outcomes
  refine ⟨?_, ?_, ?_, ?_⟩
  · intro hall
    have hf : (bulk_process_items outcomes).2.1 = 0 := by
      rw [hc.2, List.countP_eq_zero]
      intro o ho
      simp [hall o ho]
    simp [bulk_create_nodes, bulk_final_status, hf]
  · intro hne hall
    have hf : (bulk_process_items outcomes).2.1 ≠ 0 := by
      rw [hc.2]
      rcases List.exists_mem_of_ne_nil outcomes hne with ⟨o, ho⟩
      have : o.isSome := by
        cases o with
        | none => exact absurd rfl (hall none ho)
        | some v => rfl
      have hpos : 0 < outcomes.countP (fun o => o.isSome) :=
        List.countP_pos_iff.mpr ⟨o, ho, this⟩
      omega
    have hs : (bulk_process_items outcomes).1 = 0 := by
      rw [hc.1, List.countP_eq_zero]
      intro o ho
      cases o with
      | none => exact absurd rfl (hall none ho)
      | some v => simp
    simp [bulk_create_nodes, bulk_final_status, hf, hs]
  · rintro ⟨os, hos, hosn⟩ ⟨of, hof, hofn⟩
    have hs : (bulk_process_items outcomes).1 ≠ 0 := by
      rw [hc.1]
      have : os.isNone := by simp [hosn]
      have hpos : 0 < outcomes.countP (fun o => o.isNone) :=
        List.countP_pos_iff.mpr ⟨os, hos, this⟩
      omega
    have hf : (bulk_process_items outcomes).2.1 ≠ 0 := by
      rw [hc.2]
      have : of.isSome := by
        cases of with
        | none => exact absurd rfl hofn
        | some v => rfl
      have hpos : 0 < outcomes.countP (fun o => o.isSome) :=
        List.countP_pos_iff.mpr ⟨of, hof, this⟩
      omega
    simp [bulk_create_nodes, bulk_final_status, hf, hs]
  · intro k m
    refine ⟨rfl, ?_⟩
    simp [bulk_create_nodes]

/-- Witness for `bulk_status_classification` on a concrete mixed run and a
concrete full-run exception. -/
theorem bulk_status_classification_witness :
    (bulk_create_nodes [none, some "boom"] none).status = MBulkStatus.partial_success ∧
    (bulk_create_nodes [none] (some (1, "crash"))).status = MBulkStatus.failed ∧
    "crash" ∈ (bulk_create_nodes [none] (some (1, "crash"))).errors := by
  refine ⟨?_, ?_, ?_⟩
  · exact (bulk_status_classification [none, some "boom"]).2.2.1
      ⟨none, by simp, rfl⟩ ⟨some "boom", by simp, by simp⟩
  · exact ((bulk_status_classification [none]).2.2.2 1 "crash").1
  · exact ((bulk_status_classification [none]).2.2.2 1 "crash").2

/-! ## Offline queue (src/src/core/offline_manager.py) -/

/-- `SyncStatus` from src/src/core/offline_manager.py lines 17-23. -/
inductive MSyncStatus where
  | pending
  | in_progress
  | completed
  | failed
  | conflict
  deriving DecidableEq, Repr

/-- The persisted columns of a `queued_operations` row that the sync loop
reads and writes (lines 126-139); the identifying and payload columns do not
change during sync and are omitted. -/
structure QueuedOpRow where
  status : MSyncStatus
  retry_count : Nat
  max_retries : Nat
  error_message : Option String
  deriving DecidableEq, Repr

/-- `OfflineManager._update_operation_status` (lines 319-344): the SQL UPDATE
sets `status`, and `error_message` only when the Python argument is truthy
(non-`None` and non-empty).  No other column — in particular not
`retry_count` — is written. -/
def update_operation_status (row : QueuedOpRow) (status : MSyncStatus)
    (error_message : Option String) : QueuedOpRow :=
  match error_message with
  | some m =>
    if m ≠ "" then { row with status := status, error_message := some m }
    else { row with status := status }
  | none => { row with status := status }

/-- Outcome of invoking the registered sync handler on an operation. -/
inductive HandlerOutcome where
  | success
  | failure
  | exn (msg : String)
  deriving DecidableEq, Repr

/-- `OfflineManager._sync_single_operation` (lines 271-317) acting on the
persisted row: the in-memory `QueuedOperation` is loaded with
`retry_count = row.retry_count`; the function marks the row `in_progress`,
invokes the handler, and on success marks `completed`; on failure or
exception it increments only the in-memory retry count and stores the new
status (and, via `_update_operation_status`, never the incremented count).
Returns (handler result, row as persisted afterwards). -/
def sync_single_operation (row : QueuedOpRow) (outcome : HandlerOutcome) :
    Bool × QueuedOpRow :=
  let row1 := update_operation_status row MSyncStatus.in_progress none
  match outcome with
  | .success => (true, update_operation_status row1 MSyncStatus.completed none)
  | .failure =>
    let rc := row.retry_count + 1
    if row.max_retries ≤ rc then
      (false, update_operation_status row1 MSyncStatus.failed (some "Max retries exceeded"))
    else
      (false, update_operation_status row1 MSyncStatus.pending none)
  | .exn m =>
    let rc := row.retry_count + 1
    if row.max_retries ≤ rc then
      (false, update_operation_status row1 MSyncStatus.failed (some m))
    else
      (false, update_operation_status row1 MSyncStatus.pending (some m))

/-- One pass of `sync_all_pending` (lines 346-395) over a single persistently
failing operation: the row is reloaded from the database (so the in-memory
retry count starts from the stored `retry_count`) and synced once with a
handler that returns failure. -/
def sync_pass_handler_fails (row : QueuedOpRow) : QueuedOpRow :=
  (sync_single_operation row .failure).2

/-- A freshly queued operation as persisted by `queue_operation` (lines
240-254): status pending, retry count 0, the default `max_retries = 3`. -/
def freshly_queued_row : QueuedOpRow :=
  { status := .pending, retry_count := 0, max_retries := 3, error_message := none }

/-- C1: `_update_operation_status` never writes `retry_count`, so the
increment in `_sync_single_operation` is lost when the next sync pass reloads
the row; a freshly queued operation whose handler fails on every pass keeps
the persisted `retry_count = 0` and status `pending` after any number of
passes — it never reaches the terminal `failed` state the claim promises
after `maxRetries` attempts. -/
theorem offline_retry_count_never_persisted :
    (∀ row status msg,
      (update_operation_status row status msg).retry_count = row.retry_count) ∧
    (∀ n : Nat,
      (sync_pass_handler_fails^[n] freshly_queued_row).retry_count = 0 ∧
      (sync_pass_handler_fails^[n] freshly_queued_row).status ≠ MSyncStatus.failed) := by
  constructor
  · intro row status msg
    unfold update_operation_status
    match msg with
    | some m =>
      by_cases h : m = "" <;> simp [h]
    | none => rfl
  · have hfix : sync_pass_handler_fails freshly_queued_row = freshly_queued_row := by
      rfl
    intro n
    rw [Function.iterate_fixed hfix]
    exact ⟨rfl, by decide⟩

/-! ## Circuit breaker (src/src/core/connection_manager.py) -/

/-- `CircuitState` from src/src/core/connection_manager.py lines 15-19;
`OPEN` is rendered `opened` because `open` is a Lean keyword. -/
inductive MCircuitState where
  | closed
  | opened
  | half_open
  deriving DecidableEq, Repr

/-- `CircuitBreakerConfig` (lines 32-37); `recovery_timeout` is compared
against float time differences and is modelled as a rational. -/
structure CircuitBreakerConfig where
  failure_threshold : Nat := 5
  recovery_timeout : ℚ := 60
  success_threshold : Nat := 3
  deriving DecidableEq, Repr

/-- The mutable state of `CircuitBreaker` (lines 67-73). -/
structure MCircuitBreaker where
  state : MCircuitState
  failure_count : Nat
  success_count : Nat
  last_failure_time : ℚ
  deriving DecidableEq, Repr

/-- A fresh breaker as built by `CircuitBreaker.__init__`. -/
def circuit_breaker_init : MCircuitBreaker :=
  { state := .closed, failure_count := 0, success_count := 0, last_failure_time := 0 }

/-- The admission step at the top of `CircuitBreaker.call` (lines 75-83):
when the state is OPEN and strictly more than `recovery_timeout` has elapsed
since the last failure, move to HALF_OPEN (resetting `success_count`);
otherwise an OPEN breaker fails fast (`none`). -/
def circuit_breaker_admission (cfg : CircuitBreakerConfig) (b : MCircuitBreaker)
    (now : ℚ) : Option MCircuitBreaker :=
  if b.state = .opened then
    if cfg.recovery_timeout < now - b.last_failure_time then
      some { b with state := .half_open, success_count := 0 }
    else
      none
  else
    some b

/-- `CircuitBreaker._on_success` (lines 93-102). -/
def circuit_breaker_on_success (cfg : CircuitBreakerConfig)
    (b : MCircuitBreaker) : MCircuitBreaker :=
  if b.state = .half_open then
    let sc := b.success_count + 1
    if cfg.success_threshold ≤ sc then
      { b with state := .closed, failure_count := 0, success_count := sc }
    else
      { b with success_count := sc }
  else
    { b with failure_count := 0 }

/-- `CircuitBreaker._on_failure` (lines 104-114). -/
def circuit_breaker_on_failure (cfg : CircuitBreakerConfig)
    (b : MCircuitBreaker) (now : ℚ) : MCircuitBreaker :=
  let b1 := { b with failure_count := b.failure_count + 1, last_failure_time := now }
  if b1.state = .half_open then
    { b1 with state := .opened }
  else if cfg.failure_threshold ≤ b1.failure_count then
    { b1 with state := .opened }
  else
    b1

/-- Outcome of the wrapped call when it is actually invoked. -/
inductive CallOutcome where
  | success
  | failure
  deriving DecidableEq, Repr

/-- `CircuitBreaker.call` (lines 75-91) at time `now` on a wrapped call with
outcome `oc`.  The boolean records whether the wrapped call was invoked
(false = failed fast with the breaker-open error). -/
def circuit_breaker_call (cfg : CircuitBreakerConfig) (b : MCircuitBreaker)
    (now : ℚ) (oc : CallOutcome) : Bool × MCircuitBreaker :=
  match circuit_breaker_admission cfg b now with
  | none => (false, b)
  | some b1 =>
    match oc with
    | .success => (true, circuit_breaker_on_success cfg b1)
    | .failure => (true, circuit_breaker_on_failure cfg b1 now)

/-- C4 counterexample: with `failureThreshold = 1`, a failure at time 0 opens
the breaker; the call made at time 60 — exactly `recoveryTimeout = 60` after
the last failure, so "once recoveryTimeout has elapsed" — still fails fast
without invoking the wrapped call (the code requires strictly more than
`recovery_timeout` to elapse), where the claim requires it to enter
half-open. -/
theorem breaker_boundary_counterexample :
    let cfg : CircuitBreakerConfig := { failure_threshold := 1 }
    let b1 := (circuit_breaker_call cfg circuit_breaker_init 0 .failure).2
    b1.state = MCircuitState.opened ∧
    (60 : ℚ) - b1.last_failure_time = cfg.recovery_timeout ∧
    circuit_breaker_call cfg b1 60 .success = (false, b1) := by
  refine ⟨?_, ?_, ?_⟩ <;>
    simp [circuit_breaker_call, circuit_breaker_admission, circuit_breaker_on_failure,
      circuit_breaker_on_success, circuit_breaker_init]

/-- A sequence of calls whose wrapped outcome is a failure, at the given
times, run through the breaker. -/
def breaker_fail_run (cfg : CircuitBreakerConfig) (b : MCircuitBreaker)
    (ts : List ℚ) : MCircuitBreaker :=
  ts.foldl (fun b t => (circuit_breaker_call cfg b t .failure).2) b

/-- A sequence of calls whose wrapped outcome is a success, at the given
times, run through the breaker. -/
def breaker_success_run (cfg : CircuitBreakerConfig) (b : MCircuitBreaker)
    (ts : List ℚ) : MCircuitBreaker :=
  ts.foldl (fun b t => (circuit_breaker_call cfg b t .success).2) b

/-- Consecutive failures from closed, while below the threshold, keep the
breaker closed and accumulate the failure counter. -/
lemma breaker_fail_run_closed (cfg : CircuitBreakerConfig) :
    ∀ (ts : List ℚ) (b : MCircuitBreaker), b.state = .closed →
      b.failure_count + ts.length < cfg.failure_threshold →
      (breaker_fail_run cfg b ts).state = .closed ∧
      (breaker_fail_run cfg b ts).failure_count = b.failure_count + ts.length := by
  intro ts
  induction ts with
  | nil =>
    intro b hb _
    exact ⟨hb, rfl⟩
  | cons t ts ih =>
    intro b hb hlt
    have hth : ¬ cfg.failure_threshold ≤ b.failure_count + 1 := by
      simp only [List.length_cons] at hlt
      omega
    have hstep : (circuit_breaker_call cfg b t .failure).2 =
        { b with failure_count := b.failure_count + 1, last_failure_time := t } := by
      simp [circuit_breaker_call, circuit_breaker_admission, circuit_breaker_on_failure,
        hb, hth]
    have h2 : breaker_fail_run cfg b (t :: ts) =
        breaker_fail_run cfg ((circuit_breaker_call cfg b t .failure).2) ts := rfl
    rw [h2, hstep]
    have := ih { b with failure_count := b.failure_count + 1, last_failure_time := t }
      (by simp [hb]) (by simp only [List.length_cons] at hlt; simp; omega)
    refine ⟨this.1, ?_⟩
    rw [this.2]
    simp only [List.length_cons]
    omega

/-- Exactly enough consecutive failures from closed open the breaker. -/
lemma breaker_fail_run_opens (cfg : CircuitBreakerConfig) :
    ∀ (ts : List ℚ) (b : MCircuitBreaker), b.state = .closed →
      b.failure_count + ts.length = cfg.failure_threshold → 0 < ts.length →
      (breaker_fail_run cfg b ts).state = .opened := by
  intro ts
  induction ts with
  | nil =>
    intro _ _ _ h
    exact absurd h (by simp)
  | cons t ts ih =>
    intro b hb heq _
    cases ts with
    | nil =>
      have hth : cfg.failure_threshold ≤ b.failure_count + 1 := by
        simp only [List.length_cons, List.length_nil] at heq
        omega
      show ((circuit_breaker_call cfg b t .failure).2).state = .opened
      simp [circuit_breaker_call, circuit_breaker_admission, circuit_breaker_on_failure,
        hb, hth]
    | cons t2 ts2 =>
      have hth : ¬ cfg.failure_threshold ≤ b.failure_count + 1 := by
        simp only [List.length_cons] at heq
        omega
      have hstep : (circuit_breaker_call cfg b t .failure).2 =
          { b with failure_count := b.failure_count + 1, last_failure_time := t } := by
        simp [circuit_breaker_call, circuit_breaker_admission, circuit_breaker_on_failure,
          hb, hth]
      have h2 : breaker_fail_run cfg b (t :: t2 :: ts2) =
          breaker_fail_run cfg ((circuit_breaker_call cfg b t .failure).2) (t2 :: ts2) := rfl
      rw [h2, hstep]
      apply ih
      · simp [hb]
      · simp only [List.length_cons] at heq ⊢
        omega
      · simp

/-- Consecutive successes in half-open, while below the success threshold,
keep the breaker half-open and accumulate the success counter. -/
lemma breaker_success_run_half (cfg : CircuitBreakerConfig) :
    ∀ (ts : List ℚ) (b : MCircuitBreaker), b.state = .half_open →
      b.success_count + ts.length < cfg.success_threshold →
      (breaker_success_run cfg b ts).state = .half_open ∧
      (breaker_success_run cfg b ts).success_count = b.success_count + ts.length := by
  intro ts
  induction ts with
  | nil =>
    intro b hb _
    exact ⟨hb, rfl⟩
  | cons t ts ih =>
    intro b hb hlt
    have hth : ¬ cfg.success_threshold ≤ b.success_count + 1 := by
      simp only [List.length_cons] at hlt
      omega
    have hstep : (circuit_breaker_call cfg b t .success).2 =
        { b with success_count := b.success_count + 1 } := by
      simp [circuit_breaker_call, circuit_breaker_admission, circuit_breaker_on_success,
        hb, hth]
    have h2 : breaker_success_run cfg b (t :: ts) =
        breaker_success_run cfg ((circuit_breaker_call cfg b t .success).2) ts := rfl
    rw [h2, hstep]
    have := ih { b with success_count := b.success_count + 1 }
      (by simp [hb]) (by simp only [List.length_cons] at hlt; simp; omega)
    refine ⟨this.1, ?_⟩
    rw [this.2]
    simp only [List.length_cons]
    omega

/-- Exactly enough consecutive successes in half-open close the breaker. -/
lemma breaker_success_run_closes (cfg : CircuitBreakerConfig) :
    ∀ (ts : List ℚ) (b : MCircuitBreaker), b.state = .half_open →
      b.success_count + ts.length = cfg.success_threshold → 0 < ts.length →
      (breaker_success_run cfg b ts).state = .closed := by
  intro ts
  induction ts with
  | nil =>
    intro _ _ _ h
    exact absurd h (by simp)
  | cons t ts ih =>
    intro b hb heq _
    cases ts with
    | nil =>
      have hth : cfg.success_threshold ≤ b.success_count + 1 := by
        simp only [List.length_cons, List.length_nil] at heq
        omega
      show ((circuit_breaker_call cfg b t .success).2).state = .closed
      simp [circuit_breaker_call, circuit_breaker_admission, circuit_breaker_on_success,
        hb, hth]
    | cons t2 ts2 =>
      have hth : ¬ cfg.success_threshold ≤ b.success_count + 1 := by
        simp only [List.length_cons] at heq
        omega
      have hstep : (circuit_breaker_call cfg b t .success).2 =
          { b with success_count := b.success_count + 1 } := by
        simp [circuit_breaker_call, circuit_breaker_admission, circuit_breaker_on_success,
          hb, hth]
      have h2 : breaker_success_run cfg b (t :: t2 :: ts2) =
          breaker_success_run cfg ((circuit_breaker_call cfg b t .success).2) (t2 :: ts2) := rfl
      rw [h2, hstep]
      apply ih
      · simp [hb]
      · simp only [List.length_cons] at heq ⊢
        omega
      · simp

/-- C4 (amended): the breaker state machine behaves as claimed, except at the
recovery boundary: an open breaker fails fast while `now − lastFailure ≤
recoveryTimeout` (the claim said strictly before), and the next call enters
half-open only once strictly more than `recoveryTimeout` has elapsed (the
claim said "once elapsed", i.e. `≥`). -/
theorem circuit_breaker_state_machine (cfg : CircuitBreakerConfig)
    (b : MCircuitBreaker) (now : ℚ) (oc : CallOutcome) (ts : List ℚ) :
    (b.state = .closed → b.failure_count = 0 →
      ts.length = cfg.failure_threshold → 0 < ts.length →
      (breaker_fail_run cfg b ts).state = .opened) ∧
    (b.state = .opened → now - b.last_failure_time ≤ cfg.recovery_timeout →
      circuit_breaker_call cfg b now oc = (false, b)) ∧
    (b.state = .opened → cfg.recovery_timeout < now - b.last_failure_time →
      (circuit_breaker_call cfg b now oc).1 = true ∧
      circuit_breaker_admission cfg b now =
        some { b with state := .half_open, success_count := 0 }) ∧
    (b.state = .half_open → b.success_count = 0 →
      ts.length = cfg.success_threshold → 0 < ts.length →
      (breaker_success_run cfg b ts).state = .closed) ∧
    (b.state = .half_open →
      ((circuit_breaker_call cfg b now .failure).2).state = .opened) ∧
    (b.state = .closed →
      circuit_breaker_call cfg b now .success = (true, { b with failure_count := 0 })) := by
  refine ⟨?_, ?_, ?_, ?_, ?_, ?_⟩
  · intro hb hf hlen hpos
    exact breaker_fail_run_opens cfg ts b hb (by omega) hpos
  · intro hb hle
    have : ¬ cfg.recovery_timeout < now - b.last_failure_time := not_lt.mpr hle
    simp [circuit_breaker_call, circuit_breaker_admission, hb, this]
  · intro hb hlt
    constructor
    · cases oc <;>
        simp [circuit_breaker_call, circuit_breaker_admission, hb, hlt]
    · simp [circuit_breaker_admission, hb, hlt]
  · intro hb hs hlen hpos
    exact breaker_success_run_closes cfg ts b hb (by omega) hpos
  · intro hb
    simp [circuit_breaker_call, circuit_breaker_admission, circuit_breaker_on_failure, hb]
  · intro hb
    simp [circuit_breaker_call, circuit_breaker_admission, circuit_breaker_on_success, hb]

/-- Witness for `circuit_breaker_state_machine` at a concrete breaker with
`failureThreshold = 2` and `successThreshold = 1`. -/
theorem circuit_breaker_state_machine_witness :
    let cfg : CircuitBreakerConfig :=
      { failure_threshold := 2, recovery_timeout := 60, success_threshold := 1 }
    (breaker_fail_run cfg circuit_breaker_init [0, 1]).state = MCircuitState.opened ∧
    (breaker_success_run cfg
      { state := .half_open, failure_count := 2, success_count := 0,
        last_failure_time := 1 } [100]).state = MCircuitState.closed ∧
    circuit_breaker_call cfg
      { state := .opened, failure_count := 2, success_count := 0, last_failure_time := 1 }
      30 .success =
      (false, { state := .opened, failure_count := 2, success_count := 0,
                last_failure_time := 1 }) ∧
    circuit_breaker_call cfg circuit_breaker_init 5 .success =
      (true, circuit_breaker_init) := by
  intro cfg
  refine ⟨?_, ?_, ?_, ?_⟩
  · exact (circuit_breaker_state_machine cfg circuit_breaker_init 0 .success [0, 1]).1
      rfl rfl rfl (by norm_num)
  · exact (circuit_breaker_state_machine cfg
      { state := .half_open, failure_count := 2, success_count := 0,
        last_failure_time := 1 } 0 .success [100]).2.2.2.1 rfl rfl rfl (by norm_num)
  · exact (circuit_breaker_state_machine cfg
      { state := .opened, failure_count := 2, success_count := 0, last_failure_time := 1 }
      30 .success []).2.1 rfl (by norm_num)
  · have h := (circuit_breaker_state_machine cfg circuit_breaker_init 5 .success []).2.2.2.2.2
      rfl
    simpa [circuit_breaker_init] using h

/-! ## Discovery over an inclusive IP range (src/src/services/discovery_service.py) -/

/-- The state of `DiscoveryService` that `discover_ip_range` reads: just the
`is_scanning` cancellation flag (`__init__`, line 87). -/
structure MDiscoveryService where
  is_scanning : Bool
  deriving DecidableEq, Repr

/-- A freshly constructed `DiscoveryService`: `self.is_scanning = False`. -/
def discovery_service_init : MDiscoveryService := { is_scanning := false }

/-- The inclusive address list built by `discover_ip_range` (lines 485-490):
`while current <= end_addr: ips.append(current); current += 1`, with IPv4
addresses abstracted to naturals. -/
def ip_range_list (start_ip end_ip : Nat) : List Nat :=
  List.range' start_ip (end_ip + 1 - start_ip)

/-- The batch slicing `hosts[i:i+batch_size]` for `i in range(0, len, batch_size)`
(lines 498-504); the source's step is `config.max_concurrent`, positive by
configuration (default 50; a step of 0 raises in Python). -/
def chunk_list (batch_size : Nat) : List Nat → List (List Nat)
  | [] => []
  | x :: xs => (x :: xs.take (batch_size - 1)) :: chunk_list batch_size (xs.drop (batch_size - 1))
  termination_by l => l.length
  decreasing_by simp; omega

/-- The outer batch loop of `discover_ip_range` (lines 500-517): before each
batch the `is_scanning` flag is read (`if not self.is_scanning: break`);
nothing in `discover_ip_range` ever sets the flag, so it is a constant during
a sequential run.  `probe` abstracts `_scan_host` (returning the discovered
node, here its address, or `none` when the host is unreachable or errored). -/
def scan_batches (is_scanning : Bool) (probe : Nat → Option Nat) :
    List (List Nat) → List Nat
  | [] => []
  | b :: bs =>
    if is_scanning then b.filterMap probe ++ scan_batches is_scanning probe bs
    else []

/-- `DiscoveryService.discover_ip_range` (lines 469-527): validates the range,
builds the inclusive address list, and runs the batch loop under the service's
current `is_scanning` flag — which, unlike `discover_network_range` (line 122),
it never sets to `True` first. -/
def discover_ip_range (svc : MDiscoveryService) (start_ip end_ip : Nat)
    (batch_size : Nat) (probe : Nat → Option Nat) : Except String (List Nat) :=
  if end_ip < start_ip then
    .error "Start IP must be less than or equal to end IP"
  else
    .ok (scan_batches svc.is_scanning probe (chunk_list batch_size (ip_range_list start_ip end_ip)))

/-- With the cancellation flag down, the batch loop exits before the first
batch. -/
lemma scan_batches_not_scanning (probe : Nat → Option Nat)
    (bs : List (List Nat)) : scan_batches false probe bs = [] := by
  cases bs <;> simp [scan_batches]

/-- The batches cover the host list exactly. -/
lemma chunk_list_flatten (batch_size : Nat) (l : List Nat) :
    (chunk_list batch_size l).flatten = l := by
  induction l using chunk_list.induct batch_size with
  | case1 => rw [chunk_list]; rfl
  | case2 x xs ih =>
    rw [chunk_list]
    simp only [List.flatten_cons, ih]
    simp [List.take_append_drop]

/-- C5: `discover_ip_range` never sets `is_scanning = True` (its sibling
`discover_network_range` does), so on a freshly constructed service — no
cancellation ever requested — the batch loop breaks before the first batch:
no address is probed and the result is empty, for any probe, even one that
discovers a node at every address.  The other two conjuncts show the loop
would cover every address of the inclusive range had the flag been set. -/
theorem discover_ip_range_scans_nothing (start_ip end_ip batch_size : Nat)
    (probe : Nat → Option Nat) :
    (start_ip ≤ end_ip →
      discover_ip_range discovery_service_init start_ip end_ip batch_size probe =
        .ok []) ∧
    (∀ a, start_ip ≤ a → a ≤ end_ip → a ∈ ip_range_list start_ip end_ip) ∧
    (chunk_list batch_size (ip_range_list start_ip end_ip)).flatten =
      ip_range_list start_ip end_ip := by
  refine ⟨?_, ?_, chunk_list_flatten _ _⟩
  · intro hle
    have h1 : ¬ end_ip < start_ip := not_lt.mpr hle
    simp [discover_ip_range, h1, discovery_service_init, scan_batches_not_scanning]
  · intro a ha1 ha2
    rw [ip_range_list, List.mem_range']
    exact ⟨a - start_ip, by omega, by omega⟩

/-- Witness for `discover_ip_range_scans_nothing`: scanning 10.0.0.1-10.0.0.3
(as 1..3) in batches of 2 with a probe that finds a node at every address
still returns no discovered nodes. -/
theorem discover_ip_range_scans_nothing_witness :
    discover_ip_range discovery_service_init 1 3 2 (fun a => some a) = .ok [] ∧
    2 ∈ ip_range_list 1 3 ∧
    (chunk_list 2 (ip_range_list 1 3)).flatten = ip_range_list 1 3 := by
  refine ⟨?_, ?_, ?_⟩
  · exact (discover_ip_range_scans_nothing 1 3 2 (fun a => some a)).1 (by norm_num)
  · exact (discover_ip_range_scans_nothing 1 3 2 (fun a => some a)).2.1 2
      (by norm_num) (by norm_num)
  · exact (discover_ip_range_scans_nothing 1 3 2 (fun a => some a)).2.2

/-! ## Node creation duplicate check (src/src/services/node_service.py, src/src/api/endpoints/nodes.py) -/

/-- `Node` from src/src/models/node.py (the fields `create_node` touches). -/
structure MNode where
  id : Nat
  name : String
  address : String
  port : Int
  api_port : Int
  usage_coefficient : ℚ
  status : MNodeStatus
  deriving DecidableEq, Repr

/-- An HTTP request issued to the panel by the node endpoints: `list_nodes`
performs GET /api/nodes, `create_node` performs POST /api/nodes. -/
inductive PanelRequest where
  | get_nodes
  | post_create_node (name address : String) (port api_port : Int)
      (usage_coefficient : ℚ) (add_as_new_host : Bool)
  deriving DecidableEq, Repr

/-- The domain errors `NodeService.create_node` raises. -/
inductive NodeServiceError where
  | node_already_exists
  | node_error
  deriving DecidableEq, Repr

/-- `NodesAPI.find_node_by_name` (src/src/api/endpoints/nodes.py lines 91-97):
lists all nodes from the panel and returns the first with the given name.
The GET it issues is accounted for by the caller's request trace. -/
def find_node_by_name (nodes : List MNode) (name : String) : Option MNode :=
  nodes.find? (fun n => n.name = name)

/-- `NodesAPI.find_node_by_address` (lines 99-105). -/
def find_node_by_address (nodes : List MNode) (address : String) : Option MNode :=
  nodes.find? (fun n => n.address = address)

/-- `validate_node_name` from src/src/core/utils.py lines 152-158; the regex
class `[a-zA-Z0-9\s\-_]` is modelled with `Char.isAlphanum`/`Char.isWhitespace`
over the string's characters. -/
def validate_node_name (name : String) : Bool :=
  if name.length < 2 || 50 < name.length then false
  else name.toList.all (fun c => c.isAlphanum || c.isWhitespace || c = '-' || c = '_')

/-- `is_valid_port` from src/src/core/utils.py lines 18-24 on an integer. -/
def is_valid_port (port : Int) : Bool :=
  1 ≤ port && port ≤ 65535

/-- `is_valid_ip` from src/src/core/utils.py lines 9-15: `ipaddress.ip_address`
acceptance, modelled for IPv4 dotted-quad literals (four decimal octets
0-255, no leading zeros); IPv6 literals, which the source also accepts, are
not modelled — the claims below are decided before validation runs. -/
def is_valid_ip (address : String) : Bool :=
  let parts := address.splitOn "."
  parts.length = 4 && parts.all (fun p =>
    p ≠ "" && p.toList.all Char.isDigit && (p = "0" || ¬ p.startsWith "0") &&
      p.toNat?.getD 256 ≤ 255)

/-- `NodeCreate.validate` (src/src/models/node.py lines 120-139) as a boolean
(the source raises `ValueError` on the first failing check). -/
def node_create_validate (name address : String) (port api_port : Int)
    (usage_coefficient : ℚ) : Bool :=
  validate_node_name name && is_valid_ip address && is_valid_port port &&
    is_valid_port api_port && 0 < usage_coefficient

/-- `NodeService.create_node` (src/src/services/node_service.py lines 73-120)
over the fleet the panel currently reports, returning the result together
with the trace of panel requests issued.  Each `find_node_by_*` call issues
one GET /api/nodes; the POST is issued only after both duplicate checks and
validation pass.  The panel-assigned fields of a successful response are
abstracted (fresh `new_id`, status `connecting`). -/
def create_node (fleet : List MNode) (new_id : Nat) (name address : String)
    (port api_port : Int) (usage_coefficient : ℚ) (add_as_new_host : Bool) :
    Except NodeServiceError MNode × List PanelRequest :=
  match find_node_by_name fleet name with
  | some _ => (.error .node_already_exists, [.get_nodes])
  | none =>
    match find_node_by_address fleet address with
    | some _ => (.error .node_already_exists, [.get_nodes, .get_nodes])
    | none =>
      if node_create_validate name address port api_port usage_coefficient then
        (.ok { id := new_id, name := name, address := address, port := port,
               api_port := api_port, usage_coefficient := usage_coefficient,
               status := .connecting },
         [.get_nodes, .get_nodes,
          .post_create_node name address port api_port usage_coefficient add_as_new_host])
      else
        (.error .node_error, [.get_nodes, .get_nodes])

/-- A fleet already containing a node named n1. -/
def fleet_with_n1 : List MNode :=
  [{ id := 1, name := "n1", address := "10.0.0.1", port := 62050, api_port := 62051,
     usage_coefficient := 1, status := .connected }]

/-- C8 counterexample: creating a node whose name duplicates an existing one
does return `NodeAlreadyExistsError`, but only after issuing a GET /api/nodes
panel call (the client-side duplicate check lists the fleet first) — the
request trace is non-empty, refuting "before any panel call". -/
theorem create_node_duplicate_after_get_counterexample :
    (create_node fleet_with_n1 2 "n1" "10.0.0.2" 62050 62051 1 true).1 =
      Except.error NodeServiceError.node_already_exists ∧
    (create_node fleet_with_n1 2 "n1" "10.0.0.2" 62050 62051 1 true).2 =
      [PanelRequest.get_nodes] ∧
    ([PanelRequest.get_nodes] : List PanelRequest) ≠ [] := by
  refine ⟨?_, ?_, by simp⟩ <;>
    simp [create_node, fleet_with_n1, find_node_by_name]

/-- C8 (amended): when the fleet already contains a node with the requested
name, `create_node` returns `NodeAlreadyExistsError` without issuing the
POST /api/nodes create request; the only panel call issued is the one GET
/api/nodes performed by the duplicate check itself. -/
theorem create_node_duplicate_no_post (fleet : List MNode) (new_id : Nat)
    (name address : String) (port api_port : Int) (usage_coefficient : ℚ)
    (add_as_new_host : Bool) :
    (∃ n ∈ fleet, n.name = name) →
    (create_node fleet new_id name address port api_port usage_coefficient
        add_as_new_host).1 = Except.error NodeServiceError.node_already_exists ∧
    (create_node fleet new_id name address port api_port usage_coefficient
        add_as_new_host).2 = [PanelRequest.get_nodes] := by
  rintro ⟨n, hn, hname⟩
  have hfind : (find_node_by_name fleet name).isSome := by
    rw [find_node_by_name, List.find?_isSome]
    exact ⟨n, hn, by simp [hname]⟩
  rcases Option.isSome_iff_exists.mp hfind with ⟨m, hm⟩
  constructor <;> simp [create_node, hm]

/-- Witness for `create_node_duplicate_no_post` on the concrete fleet with a
node named n1. -/
theorem create_node_duplicate_no_post_witness :
    (create_node fleet_with_n1 7 "n1" "10.0.0.9" 62050 62051 1 true).1 =
      Except.error NodeServiceError.node_already_exists ∧
    (create_node fleet_with_n1 7 "n1" "10.0.0.9" 62050 62051 1 true).2 =
      [PanelRequest.get_nodes] :=
  create_node_duplicate_no_post fleet_with_n1 7 "n1" "10.0.0.9" 62050 62051 1 true
    ⟨{ id := 1, name := "n1", address := "10.0.0.1", port := 62050, api_port := 62051,
       usage_coefficient := 1, status := .connected }, by simp [fleet_with_n1], rfl⟩

/-! ## Cache byte budget (src/src/core/cache_manager.py) -/

/-- The columns of a `cache_entries` row that the budget claim reads; the
value, creation/expiry timestamps, access counter and tags are not consulted
by `set`'s size accounting and are omitted. -/
structure CacheEntryRow where
  key : String
  last_accessed : ℚ
  size_bytes : Nat
  deriving DecidableEq, Repr

/-- The state of `CacheManager` (src/src/core/cache_manager.py lines 59-77)
relevant to the byte-budget invariant: the `cache_entries` table and the
in-memory statistics counters (Python ints, hence `Int`). -/
structure CacheState where
  entries : List CacheEntryRow
  stats_total_entries : Int
  stats_total_size : Int
  stats_eviction_count : Int
  max_size_bytes : Nat
  deriving DecidableEq, Repr

/-- Sum of `size_bytes` over the stored entries. -/
def sum_sizes (l : List CacheEntryRow) : Nat :=
  (l.map (fun r => r.size_bytes)).sum

/-- The `ORDER BY last_accessed ASC` comparator of `_evict_entries`. -/
def lru_le (a b : CacheEntryRow) : Bool :=
  a.last_accessed ≤ b.last_accessed

/-- The row-deletion loop of `CacheManager._evict_entries` (lines 386-395) on
the `last_accessed`-ascending row list: delete rows, accumulating freed bytes
and the evicted count, breaking as soon as `freed_bytes >= needed_bytes`.
Returns (surviving rows, freed bytes, evicted count). -/
def evict_loop : Nat → List CacheEntryRow → List CacheEntryRow × Nat × Nat
  | _, [] => ([], 0, 0)
  | needed, r :: rs =>
    if needed ≤ r.size_bytes then (rs, r.size_bytes, 1)
    else
      let k := evict_loop (needed - r.size_bytes) rs
      (k.1, r.size_bytes + k.2.1, k.2.2 + 1)

/-- `CacheManager._evict_entries` (lines 373-406): scan rows in
`last_accessed` ascending order, delete until at least `needed_bytes` are
freed (or the table is empty), then update the statistics counters. -/
def evict_entries (s : CacheState) (needed_bytes : Nat) : CacheState :=
  let sorted := s.entries.mergeSort lru_le
  let k := evict_loop needed_bytes sorted
  { s with entries := k.1,
           stats_total_entries := s.stats_total_entries - k.2.2,
           stats_total_size := s.stats_total_size - k.2.1,
           stats_eviction_count := s.stats_eviction_count + k.2.2 }

/-- The UPDATE-or-INSERT block of `CacheManager.set` (lines 272-299): UPDATE
the row with the (primary) key if present, adjusting `stats.total_size_bytes`
by the size difference, else INSERT a fresh row and grow the counters.  `now`
is `time.time()` at the call, stored into `last_accessed`. -/
def cache_put_row (s1 : CacheState) (key : String) (size_bytes : Nat) (now : ℚ) :
    CacheState :=
  match s1.entries.find? (fun r => r.key = key) with
  | some old =>
    { s1 with
      entries := s1.entries.map (fun r =>
        if r.key = key then { r with last_accessed := now, size_bytes := size_bytes }
        else r),
      stats_total_size := s1.stats_total_size + size_bytes - old.size_bytes }
  | none =>
    { s1 with
      entries := s1.entries ++ [{ key := key, last_accessed := now, size_bytes := size_bytes }],
      stats_total_entries := s1.stats_total_entries + 1,
      stats_total_size := s1.stats_total_size + size_bytes }

/-- `CacheManager.set` (lines 247-306) for a value whose serialized size is
`size_bytes` (every byte count arises from some value, so the value itself is
abstracted to its size): evict LRU entries when
`stats.total_size_bytes + size_bytes > max_size_bytes`, then store the row. -/
def cache_set (s : CacheState) (key : String) (size_bytes : Nat) (now : ℚ) :
    CacheState :=
  let s1 := if (s.max_size_bytes : Int) < s.stats_total_size + size_bytes
            then evict_entries s size_bytes else s
  cache_put_row s1 key size_bytes now

/-- Well-formedness the SQLite store guarantees: keys are unique (PRIMARY KEY)
and the in-memory size counter matches the stored rows. -/
def cache_wf (s : CacheState) : Prop :=
  (s.entries.map (fun r => r.key)).Nodup ∧
  s.stats_total_size = (sum_sizes s.entries : Int)

/-- The eviction loop frees exactly the sizes of the deleted rows, stops only
once the freed bytes reach the request (or the table is exhausted), and keeps
a sublist of rows. -/
lemma evict_loop_spec (l : List CacheEntryRow) :
    ∀ needed,
      (evict_loop needed l).2.1 + sum_sizes (evict_loop needed l).1 = sum_sizes l ∧
      ((evict_loop needed l).1 = [] ∨ needed ≤ (evict_loop needed l).2.1) ∧
      (evict_loop needed l).1.Sublist l := by
  induction l with
  | nil =>
    intro needed
    exact ⟨rfl, Or.inl rfl, List.Sublist.refl _⟩
  | cons r rs ih =>
    intro needed
    by_cases h : needed ≤ r.size_bytes
    · refine ⟨?_, Or.inr ?_, ?_⟩ <;> simp [evict_loop, h, sum_sizes]
    · have := ih (needed - r.size_bytes)
      refine ⟨?_, ?_, ?_⟩
      · simp only [evict_loop, if_neg h]
        simp only [sum_sizes, List.map_cons, List.sum_cons] at this ⊢
        omega
      · simp only [evict_loop, if_neg h]
        rcases this.2.1 with hnil | hge
        · exact Or.inl hnil
        · exact Or.inr (by omega)
      · simp only [evict_loop, if_neg h]
        exact List.Sublist.cons r this.2.2

/-- A sort by `last_accessed` permutes the rows, preserving the size sum and
key uniqueness. -/
lemma mergeSort_sum_nodup (l : List CacheEntryRow)
    (hnd : (l.map (fun r => r.key)).Nodup) :
    sum_sizes (l.mergeSort lru_le) = sum_sizes l ∧
    ((l.mergeSort lru_le).map (fun r => r.key)).Nodup := by
  have hperm := List.mergeSort_perm l lru_le
  constructor
  · exact (hperm.map (fun r => r.size_bytes)).sum_eq
  · exact ((hperm.map (fun r => r.key)).nodup_iff).mpr hnd

/-- `_evict_entries` keeps keys unique, keeps the size counter coupled to the
rows, leaves the budget unchanged, and either empties the table or frees at
least the requested bytes. -/
lemma evict_entries_spec (s : CacheState) (needed : Nat)
    (hnd : (s.entries.map (fun r => r.key)).Nodup)
    (hcouple : s.stats_total_size = (sum_sizes s.entries : Int)) :
    ((evict_entries s needed).entries.map (fun r => r.key)).Nodup ∧
    (evict_entries s needed).stats_total_size =
      (sum_sizes (evict_entries s needed).entries : Int) ∧
    ((evict_entries s needed).entries = [] ∨
      sum_sizes (evict_entries s needed).entries + needed ≤ sum_sizes s.entries) ∧
    (evict_entries s needed).max_size_bytes = s.max_size_bytes := by
  have hms := mergeSort_sum_nodup s.entries hnd
  have hel := evict_loop_spec (s.entries.mergeSort lru_le) needed
  simp only [evict_entries]
  refine ⟨(hel.2.2.map (fun r => r.key)).nodup hms.2, ?_, ?_, by trivial⟩
  · rw [hcouple]
    have h1 := hel.1
    rw [hms.1] at h1
    omega
  · rcases hel.2.1 with hnil | hge
    · exact Or.inl hnil
    · right
      have h1 := hel.1
      rw [hms.1] at h1
      omega

/-- Updating the row with a given key (the SQL UPDATE of `set`) changes the
size sum by the difference of the new and old sizes, when keys are unique. -/
lemma sum_sizes_update (key : String) (size_bytes : Nat) (now : ℚ) :
    ∀ (l : List CacheEntryRow) (old : CacheEntryRow),
      (l.map (fun r => r.key)).Nodup →
      l.find? (fun r => r.key = key) = some old →
      (sum_sizes (l.map (fun r =>
          if r.key = key then { r with last_accessed := now, size_bytes := size_bytes }
          else r)) : Int) = (sum_sizes l : Int) - old.size_bytes + size_bytes := by
  intro l
  induction l with
  | nil => intro old _ hfind; simp at hfind
  | cons h t ih =>
    intro old hnd hfind
    simp only [List.map_cons, List.nodup_cons] at hnd
    by_cases hk : h.key = key
    · rw [List.find?_cons_of_pos _ (by simp [hk])] at hfind
      have hold : h = old := Option.some.inj hfind
      have hnot : ∀ r ∈ t, r.key ≠ key := by
        intro r hr hrk
        exact hnd.1 (hk ▸ hrk ▸ List.mem_map.mpr ⟨r, hr, rfl⟩)
      have hmap : t.map (fun r =>
          if r.key = key then { r with last_accessed := now, size_bytes := size_bytes }
          else r) = t := by
        apply (List.map_congr_left ?_).trans (List.map_id t)
        intro r hr
        simp [hnot r hr]
      simp only [List.map_cons, if_pos hk, hmap, ← hold, sum_sizes, List.sum_cons]
      push_cast
      ring
    · rw [List.find?_cons_of_neg _ (by simp [hk])] at hfind
      have := ih old hnd.2 hfind
      simp only [List.map_cons, if_neg hk, sum_sizes, List.sum_cons] at this ⊢
      push_cast at this ⊢
      omega

/-- The UPDATE/INSERT step preserves well-formedness and, given headroom of
`size_bytes` below the budget `B`, keeps the stored sum within `B`. -/
lemma cache_put_row_spec (s1 : CacheState) (key : String) (size_bytes : Nat)
    (now : ℚ) (B : Nat)
    (hnd1 : (s1.entries.map (fun r => r.key)).Nodup)
    (hcouple1 : s1.stats_total_size = (sum_sizes s1.entries : Int))
    (hbound1 : sum_sizes s1.entries + size_bytes ≤ B)
    (hmax1 : s1.max_size_bytes = B) :
    cache_wf (cache_put_row s1 key size_bytes now) ∧
    sum_sizes (cache_put_row s1 key size_bytes now).entries ≤ B ∧
    (cache_put_row s1 key size_bytes now).max_size_bytes = B := by
  cases hfind : s1.entries.find? (fun r => r.key = key) with
  | some old =>
    have hupd := sum_sizes_update key size_bytes now s1.entries old hnd1 hfind
    have hkeys : (s1.entries.map (fun r =>
        if r.key = key then { r with last_accessed := now, size_bytes := size_bytes }
        else r)).map (fun r => r.key) = s1.entries.map (fun r => r.key) := by
      rw [List.map_map]
      apply List.map_congr_left
      intro r _
      by_cases hk : r.key = key <;> simp [hk]
    simp only [cache_put_row, hfind]
    refine ⟨⟨by rw [hkeys]; exact hnd1, ?_⟩, ?_, hmax1⟩
    · rw [hcouple1, hupd]
      push_cast
      ring
    · omega
  | none =>
    have hfree : key ∉ s1.entries.map (fun r => r.key) := by
      intro hmem
      rcases List.mem_map.mp hmem with ⟨r, hr, hrk⟩
      have := List.find?_eq_none.mp hfind r hr
      simp [hrk] at this
    simp only [cache_put_row, hfind]
    refine ⟨⟨?_, ?_⟩, ?_, hmax1⟩
    · rw [List.map_append]
      simp only [List.map_cons, List.map_nil]
      exact List.Nodup.append hnd1 (List.nodup_singleton _)
        (by simpa [List.disjoint_singleton] using hfree)
    · rw [hcouple1]
      simp [sum_sizes]
    · simp only [sum_sizes, List.map_append, List.sum_append, List.map_cons,
        List.map_nil, List.sum_cons, List.sum_nil]
      simp only [sum_sizes] at hbound1
      omega

/-- An empty cache whose byte budget is 10. -/
def empty_cache_budget_10 : CacheState :=
  { entries := [], stats_total_entries := 0, stats_total_size := 0,
    stats_eviction_count := 0, max_size_bytes := 10 }

/-- A 10-byte-budget cache holding one 7-byte entry under key a. -/
def cache_with_one_entry : CacheState :=
  { entries := [{ key := "a", last_accessed := 1, size_bytes := 7 }],
    stats_total_entries := 1, stats_total_size := 7, stats_eviction_count := 0,
    max_size_bytes := 10 }

/-- C2 counterexample: on an empty cache with a 10-byte budget, `set` of a
15-byte value triggers eviction, finds nothing to evict, and inserts anyway:
the stored sum is 15 > 10, violating the claimed invariant for a value whose
size alone exceeds the budget. -/
theorem cache_set_oversized_counterexample :
    sum_sizes (cache_set empty_cache_budget_10 "k" 15 0).entries = 15 ∧
    (cache_set empty_cache_budget_10 "k" 15 0).max_size_bytes = 10 ∧ ¬ (15 ≤ 10) := by
  refine ⟨?_, ?_, by omega⟩ <;>
    norm_num [cache_set, cache_put_row, evict_entries, evict_loop, sum_sizes,
      empty_cache_budget_10]

/-- C2 (amended): after any successful `set` of a value whose serialized size
is at most `maxSizeBytes`, from a well-formed state within budget, the sum of
`sizeBytes` over the stored entries is again at most `maxSizeBytes` (LRU
eviction in `lastAccessed` ascending order having freed enough space), and
the state stays well-formed; an oversized value breaks the invariant, as the
counterexample shows. -/
theorem cache_set_respects_budget (s : CacheState) (key : String)
    (size_bytes : Nat) (now : ℚ) :
    cache_wf s → sum_sizes s.entries ≤ s.max_size_bytes →
    size_bytes ≤ s.max_size_bytes →
    cache_wf (cache_set s key size_bytes now) ∧
    sum_sizes (cache_set s key size_bytes now).entries ≤ s.max_size_bytes ∧
    (cache_set s key size_bytes now).max_size_bytes = s.max_size_bytes := by
  rintro ⟨hnd, hcouple⟩ hbudget hsize
  rw [cache_set]
  split
  · rename_i hev
    have hes := evict_entries_spec s size_bytes hnd hcouple
    apply cache_put_row_spec _ _ _ _ _ hes.1 hes.2.1 ?_ hes.2.2.2
    rcases hes.2.2.1 with hnil | hge
    · rw [hnil]
      simpa [sum_sizes] using hsize
    · omega
  · exact cache_put_row_spec _ _ _ _ _ hnd hcouple (by omega) rfl

/-- Witness for `cache_set_respects_budget`: inserting a 6-byte value into a
10-byte cache holding one 7-byte entry evicts the old entry and stays within
budget. -/
theorem cache_set_respects_budget_witness :
    sum_sizes (cache_set cache_with_one_entry "b" 6 2).entries ≤ 10 := by
  have hwf : cache_wf cache_with_one_entry := by
    constructor
    · simp [cache_with_one_entry]
    · simp [cache_with_one_entry, sum_sizes]
  have h := cache_set_respects_budget cache_with_one_entry "b" 6 2 hwf
    (by simp [cache_with_one_entry, sum_sizes]) (by simp [cache_with_one_entry])
  simpa [cache_with_one_entry] using h.2.1
